import Mathlib

/-
Verification of the ship-game turn engine (src/main.py) against its
natural-language specification.

The embedding is shallow: the Python dict board becomes a function
from integer coordinates to optional ship states; in-place mutation
plus exceptions becomes explicit state passing, with each turn
processor returning the (possibly mutated) board together with either
a result record or the raised failure; the regex-based line parser is
embedded as a deterministic character-list parser implementing the
same pattern with Python re.search semantics (try each start position
left to right).
-/

namespace ShipGame

/-- Compass heading of a ship: the direction characters N, S, E, W of main.py. -/
inductive Dir
  | N
  | S
  | E
  | W
deriving DecidableEq

/-- A rotation op: the action characters L and R used to index DIRECTION_TRANSITIONS. -/
inductive Rot
  | L
  | R
deriving DecidableEq

/-- One character of a movement action string: L, R or M.  The TURN_REGEX
captures only these three letters, which is what licenses the closed type
(the assert in process_move documents that only M reaches the else branch). -/
inductive MoveAction
  | L
  | R
  | M
deriving DecidableEq

/-- A board entry: (direction, alive), as stored in the Python dict. -/
abbrev ShipState := Dir × Bool

/-- The sparse board: Python dict mapping (x, y) to (direction, alive),
embedded as a function to Option.  A function assigns at most one state per
coordinate, so the one-ship-per-coordinate part of the board invariant is
intrinsic to the representation, exactly as for a Python dict. -/
abbrev Board := Int × Int → Option ShipState

/-- Python `del board[location]`. -/
def Board.del (b : Board) (c : Int × Int) : Board :=
  fun c' => if c' = c then none else b c'

/-- Python `board[location] = s`. -/
def Board.set (b : Board) (c : Int × Int) (s : ShipState) : Board :=
  fun c' => if c' = c then some s else b c'

/-- namedtuple MovementTurn(ship_x, ship_y, actions). -/
structure MovementTurn where
  ship_x : Int
  ship_y : Int
  actions : List MoveAction
deriving DecidableEq

/-- namedtuple ShootingTurn(target_x, target_y). -/
structure ShootingTurn where
  target_x : Int
  target_y : Int
deriving DecidableEq

/-- The discriminated union of parsed commands handled by process_turn. -/
inductive Turn
  | movement : MovementTurn → Turn
  | shooting : ShootingTurn → Turn
deriving DecidableEq

/-- namedtuple Ship(x, y, direction, alive) holding one initial fleet entry. -/
structure Ship where
  x : Int
  y : Int
  direction : Dir
  alive : Bool
deriving DecidableEq

/-- The result records MovedShip, ShotNoTarget, SunkAliveShip, SunkDeadShip. -/
inductive TurnAction
  | movedShip (start_x start_y : Int) (start_direction : Dir)
      (end_x end_y : Int) (end_direction : Dir)
  | shotNoTarget (target_x target_y : Int)
  | sunkAliveShip (ship_x ship_y : Int)
  | sunkDeadShip (ship_x ship_y : Int)
deriving DecidableEq

/-- The InvalidTurn exception hierarchy, with the args each raise site passes. -/
inductive InvalidTurn
  | invalidTurnType
  | moveOutsideBoard (turn_number : Nat) (x y : Int)
  | movingSunkShip (turn_number : Nat) (x y : Int)
  | noShipAtLocation (turn_number : Nat) (x y : Int)
  | shipAtMoveTarget (turn_number : Nat) (x y : Int)
deriving DecidableEq

instance {ε α : Type} [DecidableEq ε] [DecidableEq α] : DecidableEq (Except ε α) :=
  fun x y =>
    match x, y with
    | .error a, .error b => decidable_of_iff (a = b) (by simp)
    | .ok a, .ok b => decidable_of_iff (a = b) (by simp)
    | .error _, .ok _ => isFalse (fun h => Except.noConfusion h)
    | .ok _, .error _ => isFalse (fun h => Except.noConfusion h)

/-- DIRECTION_TRANSITIONS of main.py: rotation table over heading and op. -/
def DIRECTION_TRANSITIONS : Dir → Rot → Dir
  | .N, .L => .W
  | .N, .R => .E
  | .S, .L => .E
  | .S, .R => .W
  | .E, .L => .N
  | .E, .R => .S
  | .W, .L => .S
  | .W, .R => .N

/-- DIRECTION_DELTAS of main.py: unit coordinate delta per heading. -/
def DIRECTION_DELTAS : Dir → Int × Int
  | .N => (0, 1)
  | .S => (0, -1)
  | .W => (-1, 0)
  | .E => (1, 0)

/-- One iteration of the action loop in process_move: L and R rotate the
heading via DIRECTION_TRANSITIONS, M adds DIRECTION_DELTAS of the current
heading to the location. -/
def stepAction : (Int × Int) × Dir → MoveAction → (Int × Int) × Dir
  | (loc, d), .L => (loc, DIRECTION_TRANSITIONS d Rot.L)
  | (loc, d), .R => (loc, DIRECTION_TRANSITIONS d Rot.R)
  | (loc, d), .M =>
      let delta := DIRECTION_DELTAS d
      ((loc.1 + delta.1, loc.2 + delta.2), d)

/-- process_move of main.py.  The Python function mutates the dict in place
and either returns a MovedShip record or raises; here it returns the board
as mutated so far together with the result-or-failure, so that the board
state left behind by a raise (the ship already deleted) is observable. -/
def process_move (board_size : Int) (board : Board) (turn_number : Nat)
    (turn : MovementTurn) : Board × Except InvalidTurn TurnAction :=
  let location := (turn.ship_x, turn.ship_y)
  match board location with
  | none => (board, .error (.noShipAtLocation turn_number turn.ship_x turn.ship_y))
  | some ship =>
    if ship.2 = false then
      (board, .error (.movingSunkShip turn_number turn.ship_x turn.ship_y))
    else
      let board1 := Board.del board location
      let start_direction := ship.1
      let fin := turn.actions.foldl stepAction (location, ship.1)
      let loc := fin.1
      let dir := fin.2
      if loc.1 < 0 ∨ loc.2 < 0 ∨ loc.1 ≥ board_size ∨ loc.2 ≥ board_size then
        (board1, .error (.moveOutsideBoard turn_number loc.1 loc.2))
      else if (board1 loc).isSome then
        (board1, .error (.shipAtMoveTarget turn_number loc.1 loc.2))
      else
        (Board.set board1 loc (dir, true),
         .ok (.movedShip location.1 location.2 start_direction loc.1 loc.2 dir))

/-- process_shoot of main.py.  Never raises; always reassigns the entry to
(direction, False) when a ship is present, then reports by prior aliveness. -/
def process_shoot (_board_size : Int) (board : Board) (_turn_number : Nat)
    (turn : ShootingTurn) : Board × TurnAction :=
  match board (turn.target_x, turn.target_y) with
  | none => (board, .shotNoTarget turn.target_x turn.target_y)
  | some ship =>
    let was_alive := ship.2
    let board' := Board.set board (turn.target_x, turn.target_y) (ship.1, false)
    if was_alive then (board', .sunkAliveShip turn.target_x turn.target_y)
    else (board', .sunkDeadShip turn.target_x turn.target_y)

/-- process_turn of main.py: dispatch on the command variant.  The Turn type
is closed, so the InvalidTurnType branch of the Python isinstance chain is
unreachable in the embedding. -/
def process_turn (board_size : Int) (board : Board) (turn_number : Nat) :
    Turn → Board × Except InvalidTurn TurnAction
  | .movement t => process_move board_size board turn_number t
  | .shooting t =>
      let r := process_shoot board_size board turn_number t
      (r.1, .ok r.2)

/-- The board-building dict comprehension at the top of run() in main.py:
later list entries overwrite earlier ones at the same key, and nothing is
validated. -/
def initialBoard (initial_ships : List Ship) : Board :=
  initial_ships.foldl
    (fun b ship => Board.set b (ship.x, ship.y) (ship.direction, ship.alive))
    (fun _ => none)

/-- The turn loop of run(): apply process_turn to each turn in order,
numbering from 0, aborting at the first failure. -/
def runTurns (board_size : Int) (board : Board) (turn_number : Nat) :
    List Turn → Except InvalidTurn Board
  | [] => .ok board
  | t :: ts =>
      match process_turn board_size board turn_number t with
      | (b', .ok _) => runTurns board_size b' (turn_number + 1) ts
      | (_, .error e) => .error e

/-- run of main.py (without the optional action list). -/
def run (board_size : Int) (initial_ships : List Ship) (turns : List Turn) :
    Except InvalidTurn Board :=
  runTurns board_size (initialBoard initial_ships) 0 turns

/-- ASCII model of the whitespace class used by Python str.strip and the
regex class backslash-s. -/
def isSpaceChar (c : Char) : Bool :=
  c = ' ' || c = '\t' || c = '\n' || c = '\r' || c = '\x0b' || c = '\x0c'

/-- Python line.strip(): drop whitespace from both ends. -/
def pyStrip (cs : List Char) : List Char :=
  ((cs.dropWhile isSpaceChar).reverse.dropWhile isSpaceChar).reverse

/-- Numeric value of a digit string, as computed by Python int(). -/
def digitsToNat (cs : List Char) : Nat :=
  cs.foldl (fun n c => 10 * n + (c.toNat - 48)) 0

/-- Attempt to match TURN_REGEX at the start of the given suffix.  The
pattern pieces (literal punctuation, whitespace runs, digit runs, the
trailing greedy LRM run) have pairwise disjoint first-character classes, so
the greedy left-to-right reading below is exactly the regex semantics:
no backtracking can turn a failure into a match.  Returns the two captured
numbers and the captured action letters. -/
def matchTurnAt (cs : List Char) : Option (Nat × Nat × List Char) :=
  match cs with
  | '(' :: rest =>
    let rest := rest.dropWhile isSpaceChar
    let xs := rest.takeWhile Char.isDigit
    let rest := rest.dropWhile Char.isDigit
    if xs = [] then none else
    let rest := rest.dropWhile isSpaceChar
    match rest with
    | ',' :: rest =>
      let rest := rest.dropWhile isSpaceChar
      let ys := rest.takeWhile Char.isDigit
      let rest := rest.dropWhile Char.isDigit
      if ys = [] then none else
      let rest := rest.dropWhile isSpaceChar
      match rest with
      | ')' :: rest =>
        let rest := rest.dropWhile isSpaceChar
        let acts := rest.takeWhile (fun c => c = 'L' || c = 'R' || c = 'M')
        some (digitsToNat xs, digitsToNat ys, acts)
      | _ => none
    | _ => none
  | _ => none

/-- Python re.search over TURN_REGEX: try to match at each start position
from left to right, returning the first (leftmost) match. -/
def searchTurn : List Char → Option (Nat × Nat × List Char)
  | [] => matchTurnAt []
  | c :: cs =>
      match matchTurnAt (c :: cs) with
      | some r => some r
      | none => searchTurn cs

/-- Decode one captured action letter; the takeWhile in matchTurnAt
guarantees only L, R, M occur. -/
def charToAction (c : Char) : MoveAction :=
  if c = 'L' then .L else if c = 'R' then .R else .M

/-- FileReader.make_turn_from_line of main.py.  A None regex match makes the
Python code fall over on match.group (there is no ParseError class in the
source), embedded as none; otherwise a MovementTurn when the captured action
run is non-empty, a ShootingTurn when it is empty. -/
def make_turn_from_line (line : List Char) : Option Turn :=
  match searchTurn (pyStrip line) with
  | none => none
  | some (x, y, acts) =>
    if acts ≠ [] then
      some (.movement ⟨(x : Int), (y : Int), acts.map charToAction⟩)
    else
      some (.shooting ⟨(x : Int), (y : Int)⟩)

/-! ### Concrete fixtures used by witnesses and counterexamples -/

/-- The test.py basic board: one alive ship at (5, 5) heading N, size 10. -/
def boardOneShip : Board :=
  fun c => if c = (5, 5) then some (Dir.N, true) else none

/-- The test.py illegal-moves board: alive (2, 2) N and sunk (4, 5) E, size 8. -/
def boardTwoShips : Board :=
  fun c =>
    if c = (2, 2) then some (Dir.N, true)
    else if c = (4, 5) then some (Dir.E, false)
    else none

/-- The action sequence LLMMMRMMLRM of the compound-move scenario. -/
def actsScenario : List MoveAction :=
  [.L, .L, .M, .M, .M, .R, .M, .M, .L, .R, .M]

/-- The board invariant of the spec: every occupied coordinate lies within
[0, boardSize) on both axes.  The second half of the spec invariant — at
most one ship per coordinate — is intrinsic to the mapping representation,
for the Lean function exactly as for the Python dict. -/
def BoardWF (bs : Int) (b : Board) : Prop :=
  ∀ c s, b c = some s → 0 ≤ c.1 ∧ 0 ≤ c.2 ∧ c.1 < bs ∧ c.2 < bs

/-! ### Parser fixtures -/

def lineA : List Char := "(123,4)".toList

def lineB : List Char := "( 123, 4)".toList

def lineC : List Char := "( 123 , 4 )".toList

def lineD : List Char := "(1,2)LR".toList

def lineJunk : List Char := "(1,2)X".toList

def lineBadBracket : List Char := "( 1, 2".toList

def lineBadNumber : List Char := "(a,2)".toList

/-! ### Board helper lemmas -/

theorem set_del_self (b : Board) (c : Int × Int) (s : ShipState) :
    Board.set (Board.del b c) c s = Board.set b c s := by
  funext c'
  by_cases h : c' = c <;> simp [Board.set, Board.del, h]

theorem set_eq_self (b : Board) (c : Int × Int) (s : ShipState) (h : b c = some s) :
    Board.set b c s = b := by
  funext c'
  by_cases hc : c' = c
  · subst hc; simp [Board.set, h]
  · simp [Board.set, hc]

/-! ### Case lemmas for process_move -/

theorem process_move_no_ship (bs : Int) (b : Board) (tn : Nat) (t : MovementTurn)
    (hb : b (t.ship_x, t.ship_y) = none) :
    process_move bs b tn t = (b, .error (.noShipAtLocation tn t.ship_x t.ship_y)) := by
  simp [process_move, hb]

theorem process_move_sunk (bs : Int) (b : Board) (tn : Nat) (t : MovementTurn)
    (d : Dir) (hb : b (t.ship_x, t.ship_y) = some (d, false)) :
    process_move bs b tn t = (b, .error (.movingSunkShip tn t.ship_x t.ship_y)) := by
  simp [process_move, hb]

theorem process_move_alive (bs : Int) (b : Board) (tn : Nat) (t : MovementTurn)
    (d : Dir) (fx fy : Int) (fd : Dir)
    (hb : b (t.ship_x, t.ship_y) = some (d, true))
    (hf : t.actions.foldl stepAction ((t.ship_x, t.ship_y), d) = ((fx, fy), fd)) :
    process_move bs b tn t =
      (if fx < 0 ∨ fy < 0 ∨ fx ≥ bs ∨ fy ≥ bs then
        (Board.del b (t.ship_x, t.ship_y), .error (.moveOutsideBoard tn fx fy))
      else if (Board.del b (t.ship_x, t.ship_y) (fx, fy)).isSome then
        (Board.del b (t.ship_x, t.ship_y), .error (.shipAtMoveTarget tn fx fy))
      else
        (Board.set (Board.del b (t.ship_x, t.ship_y)) (fx, fy) (fd, true),
         .ok (.movedShip t.ship_x t.ship_y d fx fy fd))) := by
  simp [process_move, hb, hf]

/-! ### Claim theorems -/

/-- C8: the rotation table DIRECTION_TRANSITIONS is total over the 4 headings
and 2 ops (it is a total Lean function), Left and Right are mutual inverses on
every heading, and applying Left four times, or Right four times, returns
every heading to itself (rotation has order 4). -/
theorem c8_rotation_algebra :
    ∀ H : Dir,
      DIRECTION_TRANSITIONS (DIRECTION_TRANSITIONS H Rot.L) Rot.R = H ∧
      DIRECTION_TRANSITIONS (DIRECTION_TRANSITIONS H Rot.R) Rot.L = H ∧
      DIRECTION_TRANSITIONS (DIRECTION_TRANSITIONS (DIRECTION_TRANSITIONS
        (DIRECTION_TRANSITIONS H Rot.L) Rot.L) Rot.L) Rot.L = H ∧
      DIRECTION_TRANSITIONS (DIRECTION_TRANSITIONS (DIRECTION_TRANSITIONS
        (DIRECTION_TRANSITIONS H Rot.R) Rot.R) Rot.R) Rot.R = H := by
  intro H
  cases H <;> exact ⟨rfl, rfl, rfl, rfl⟩

/-- C2: shooting never raises and obeys the complete case analysis, for any
integer target coordinate (no bounds are checked for shots): absent target
leaves the board unchanged and reports ShotNoTarget; an alive ship is marked
not-alive with the same heading at the same coordinate, reporting
SunkAliveShip; an already sunk ship leaves the board unchanged as a value,
reporting SunkDeadShip; hence shooting a sunk ship twice in a row reports
SunkDeadShip both times with the board unchanged between the shots. -/
theorem c2_shoot_cases :
    ∀ (bs : Int) (b : Board) (tn : Nat) (x y : Int),
      (b (x, y) = none →
        process_turn bs b tn (Turn.shooting ⟨x, y⟩) =
          (b, .ok (.shotNoTarget x y))) ∧
      (∀ d : Dir, b (x, y) = some (d, true) →
        process_turn bs b tn (Turn.shooting ⟨x, y⟩) =
          (Board.set b (x, y) (d, false), .ok (.sunkAliveShip x y))) ∧
      (∀ d : Dir, b (x, y) = some (d, false) →
        process_turn bs b tn (Turn.shooting ⟨x, y⟩) =
          (b, .ok (.sunkDeadShip x y))) ∧
      (∀ (d : Dir) (tn' : Nat), b (x, y) = some (d, false) →
        process_turn bs b tn (Turn.shooting ⟨x, y⟩) =
          (b, .ok (.sunkDeadShip x y)) ∧
        process_turn bs b tn' (Turn.shooting ⟨x, y⟩) =
          (b, .ok (.sunkDeadShip x y))) := by
  intro bs b tn x y
  have dead : ∀ (tn0 : Nat) (d : Dir), b (x, y) = some (d, false) →
      process_turn bs b tn0 (Turn.shooting ⟨x, y⟩) =
        (b, .ok (.sunkDeadShip x y)) := by
    intro tn0 d h
    have hset : Board.set b (x, y) (d, false) = b := set_eq_self b (x, y) (d, false) h
    simp [process_turn, process_shoot, h, hset]
  refine ⟨?_, ?_, ?_, ?_⟩
  · intro h
    simp [process_turn, process_shoot, h]
  · intro d h
    simp [process_turn, process_shoot, h]
  · intro d h
    exact dead tn d h
  · intro d tn' h
    exact ⟨dead tn d h, dead tn' d h⟩

/-- C2 witness: shooting the alive ship at (5, 5) on the fixture board marks
it not-alive in place and reports SunkAliveShip(5, 5), without raising. -/
theorem c2_shoot_cases_witness :
    process_turn 10 boardOneShip 0 (Turn.shooting ⟨5, 5⟩) =
      (Board.set boardOneShip (5, 5) (Dir.N, false),
       .ok (.sunkAliveShip 5 5)) :=
  (c2_shoot_cases 10 boardOneShip 0 5 5).2.1 Dir.N (by decide)

/-- C1: when an alive ship with heading H occupies (x, y), the movement
engine folds the action sequence left-to-right from ((x, y), H) with
stepAction (L/R rotate only, M advances by the delta of the heading current
at that point, no intermediate bounds check), and if the folded final
coordinate is in bounds and unoccupied on the board from which the mover was
removed, the new board is the original with (x, y) deleted and the final
coordinate mapped to (final heading, alive), all other entries unchanged,
and the result is MovedShip(x, y, H, finalX, finalY, finalHeading).
In particular from (5, 5) heading N the actions LLMMMRMMLRM end at (2, 2)
heading W. -/
theorem c1_move_success :
    (∀ (bs : Int) (b : Board) (tn : Nat) (x y : Int) (acts : List MoveAction)
      (H : Dir) (fx fy : Int) (fd : Dir),
      b (x, y) = some (H, true) →
      acts.foldl stepAction ((x, y), H) = ((fx, fy), fd) →
      0 ≤ fx → 0 ≤ fy → fx < bs → fy < bs →
      Board.del b (x, y) (fx, fy) = none →
      process_turn bs b tn (Turn.movement ⟨x, y, acts⟩) =
        (Board.set (Board.del b (x, y)) (fx, fy) (fd, true),
         .ok (.movedShip x y H fx fy fd))) ∧
    actsScenario.foldl stepAction ((5, 5), Dir.N) = ((2, 2), Dir.W) := by
  constructor
  · intro bs b tn x y acts H fx fy fd hb hf hx0 hy0 hxs hys hfree
    have h := process_move_alive bs b tn ⟨x, y, acts⟩ H fx fy fd hb hf
    have hout : ¬(fx < 0 ∨ fy < 0 ∨ fx ≥ bs ∨ fy ≥ bs) := by omega
    rw [show process_turn bs b tn (Turn.movement ⟨x, y, acts⟩) =
      process_move bs b tn ⟨x, y, acts⟩ from rfl, h, if_neg hout, if_neg (by
        simp [hfree])]
  · decide

/-- C1 witness: on the fixture board the ship at (5, 5) heading N moving
LLMMMRMMLRM ends at (2, 2) heading W, the board records the move, and the
result is MovedShip(5, 5, N, 2, 2, W). -/
theorem c1_move_success_witness :
    process_turn 10 boardOneShip 0 (Turn.movement ⟨5, 5, actsScenario⟩) =
      (Board.set (Board.del boardOneShip (5, 5)) (2, 2) (Dir.W, true),
       .ok (.movedShip 5 5 Dir.N 2 2 Dir.W)) :=
  c1_move_success.1 10 boardOneShip 0 5 5 actsScenario Dir.N 2 2 Dir.W
    (by decide) (by decide) (by decide) (by decide) (by decide) (by decide)
    (by decide)

/-- C3: complete failure characterization of a movement turn, in check
order: absent ship, sunk ship, folded final coordinate out of bounds,
final coordinate occupied (on the board with the mover removed); otherwise
the move succeeds.  The five conjuncts cover every case exactly once, so
the turn fails precisely when one of the four failure conditions holds,
with the stated turn number and coordinates attached. -/
theorem c3_move_failure_characterization :
    ∀ (bs : Int) (b : Board) (tn : Nat) (x y : Int) (acts : List MoveAction),
      (b (x, y) = none →
        process_turn bs b tn (Turn.movement ⟨x, y, acts⟩) =
          (b, .error (.noShipAtLocation tn x y))) ∧
      (∀ d : Dir, b (x, y) = some (d, false) →
        process_turn bs b tn (Turn.movement ⟨x, y, acts⟩) =
          (b, .error (.movingSunkShip tn x y))) ∧
      (∀ (d : Dir) (fx fy : Int) (fd : Dir),
        b (x, y) = some (d, true) →
        acts.foldl stepAction ((x, y), d) = ((fx, fy), fd) →
        ((fx < 0 ∨ fy < 0 ∨ fx ≥ bs ∨ fy ≥ bs) →
          (process_turn bs b tn (Turn.movement ⟨x, y, acts⟩)).2 =
            .error (.moveOutsideBoard tn fx fy)) ∧
        (¬(fx < 0 ∨ fy < 0 ∨ fx ≥ bs ∨ fy ≥ bs) →
          (Board.del b (x, y) (fx, fy)).isSome →
          (process_turn bs b tn (Turn.movement ⟨x, y, acts⟩)).2 =
            .error (.shipAtMoveTarget tn fx fy)) ∧
        (¬(fx < 0 ∨ fy < 0 ∨ fx ≥ bs ∨ fy ≥ bs) →
          Board.del b (x, y) (fx, fy) = none →
          (process_turn bs b tn (Turn.movement ⟨x, y, acts⟩)).2 =
            .ok (.movedShip x y d fx fy fd))) := by
  intro bs b tn x y acts
  refine ⟨?_, ?_, ?_⟩
  · intro hb
    exact process_move_no_ship bs b tn ⟨x, y, acts⟩ hb
  · intro d hb
    exact process_move_sunk bs b tn ⟨x, y, acts⟩ d hb
  · intro d fx fy fd hb hf
    have hm := process_move_alive bs b tn ⟨x, y, acts⟩ d fx fy fd hb hf
    rw [show process_turn bs b tn (Turn.movement ⟨x, y, acts⟩) =
      process_move bs b tn ⟨x, y, acts⟩ from rfl, hm]
    refine ⟨?_, ?_, ?_⟩
    · intro hout
      rw [if_pos hout]
    · intro hout hocc
      rw [if_neg hout, if_pos hocc]
    · intro hout hfree
      rw [if_neg hout, if_neg (by simp [hfree])]

/-- C3 witness: on the two-ship fixture, ordering the sunk ship at (4, 5)
to move fails with MovingSunkShip(0, 4, 5) and the board is untouched. -/
theorem c3_move_failure_witness :
    process_turn 8 boardTwoShips 0
        (Turn.movement ⟨4, 5, [.L, .M, .M, .M, .M, .M]⟩) =
      (boardTwoShips, .error (.movingSunkShip 0 4 5)) :=
  ((c3_move_failure_characterization 8 boardTwoShips 0 4 5
    [.L, .M, .M, .M, .M, .M]).2.1) Dir.E (by decide)

/-- C5: a movement turn that fails after the precondition checks (raising
MoveOutsideBoard or ShipAtMoveTarget) leaves the board equal to the original
with only the moving ship's entry removed — the ship is not re-inserted
anywhere. -/
theorem c5_failed_move_board :
    ∀ (bs : Int) (b : Board) (tn : Nat) (x y : Int) (acts : List MoveAction)
      (tn' : Nat) (fx fy : Int),
      ((process_turn bs b tn (Turn.movement ⟨x, y, acts⟩)).2 =
          .error (.moveOutsideBoard tn' fx fy) ∨
       (process_turn bs b tn (Turn.movement ⟨x, y, acts⟩)).2 =
          .error (.shipAtMoveTarget tn' fx fy)) →
      (process_turn bs b tn (Turn.movement ⟨x, y, acts⟩)).1 =
        Board.del b (x, y) := by
  intro bs b tn x y acts tn' fx fy h
  rw [show process_turn bs b tn (Turn.movement ⟨x, y, acts⟩) =
    process_move bs b tn ⟨x, y, acts⟩ from rfl] at h ⊢
  rcases hb : b (x, y) with _ | ⟨d, alive⟩
  · rw [process_move_no_ship bs b tn ⟨x, y, acts⟩ hb] at h
    rcases h with h | h <;> simp at h
  · cases alive with
    | false =>
      rw [process_move_sunk bs b tn ⟨x, y, acts⟩ d hb] at h
      rcases h with h | h <;> simp at h
    | true =>
      have hm := process_move_alive bs b tn ⟨x, y, acts⟩ d
        (acts.foldl stepAction ((x, y), d)).1.1
        (acts.foldl stepAction ((x, y), d)).1.2
        (acts.foldl stepAction ((x, y), d)).2 hb rfl
      rw [hm] at h ⊢
      split_ifs at h ⊢
      · rfl
      · rfl
      · rcases h with h | h <;> simp at h

/-- C5 witness: moving the ship at (2, 2) off the size-8 board with LMMMMM
raises MoveOutsideBoard(0, -3, 2) and leaves the board equal to the original
with only the (2, 2) entry removed. -/
theorem c5_failed_move_board_witness :
    (process_turn 8 boardTwoShips 0
        (Turn.movement ⟨2, 2, [.L, .M, .M, .M, .M, .M]⟩)).1 =
      Board.del boardTwoShips (2, 2) :=
  c5_failed_move_board 8 boardTwoShips 0 2 2 [.L, .M, .M, .M, .M, .M]
    0 (-3) 2 (Or.inl (by decide))

theorem wf_del (bs : Int) (b : Board) (c0 : Int × Int) (h : BoardWF bs b) :
    BoardWF bs (Board.del b c0) := by
  intro c s hc
  by_cases hcc : c = c0
  · simp [Board.del, hcc] at hc
  · simp [Board.del, hcc] at hc
    exact h c s hc

theorem wf_set (bs : Int) (b : Board) (c0 : Int × Int) (s0 : ShipState)
    (h : BoardWF bs b)
    (hc0 : 0 ≤ c0.1 ∧ 0 ≤ c0.2 ∧ c0.1 < bs ∧ c0.2 < bs) :
    BoardWF bs (Board.set b c0 s0) := by
  intro c s hc
  by_cases hcc : c = c0
  · subst hcc
    exact hc0
  · simp [Board.set, hcc] at hc
    exact h c s hc

/-- C7: if every occupied coordinate of the board is within
[0, boardSize) (with per-coordinate uniqueness intrinsic to the mapping),
then after any command that completes without failure the resulting board
again satisfies the invariant. -/
theorem c7_invariant_preservation :
    ∀ (bs : Int) (b : Board) (tn : Nat) (t : Turn) (a : TurnAction),
      BoardWF bs b →
      (process_turn bs b tn t).2 = .ok a →
      BoardWF bs (process_turn bs b tn t).1 := by
  intro bs b tn t a hwf hok
  cases t with
  | shooting st =>
    rcases hb : b (st.target_x, st.target_y) with _ | ⟨sd, sa⟩
    · simpa [process_turn, process_shoot, hb] using hwf
    · have hbounds := hwf (st.target_x, st.target_y) (sd, sa) hb
      cases sa <;> simp [process_turn, process_shoot, hb] <;>
        exact wf_set bs b (st.target_x, st.target_y) (sd, false) hwf hbounds
  | movement mt =>
    rw [show process_turn bs b tn (Turn.movement mt) =
      process_move bs b tn mt from rfl] at hok ⊢
    rcases hb : b (mt.ship_x, mt.ship_y) with _ | ⟨d, alive⟩
    · rw [process_move_no_ship bs b tn mt hb] at hok
      simp at hok
    · cases alive with
      | false =>
        rw [process_move_sunk bs b tn mt d hb] at hok
        simp at hok
      | true =>
        have hm := process_move_alive bs b tn mt d
          (mt.actions.foldl stepAction ((mt.ship_x, mt.ship_y), d)).1.1
          (mt.actions.foldl stepAction ((mt.ship_x, mt.ship_y), d)).1.2
          (mt.actions.foldl stepAction ((mt.ship_x, mt.ship_y), d)).2 hb rfl
        rw [hm] at hok ⊢
        split_ifs at hok ⊢ with h1 h2
        all_goals try simp at hok
        all_goals (
          push_neg at h1
          exact wf_set bs (Board.del b (mt.ship_x, mt.ship_y))
            ((mt.actions.foldl stepAction ((mt.ship_x, mt.ship_y), d)).1.1,
              (mt.actions.foldl stepAction ((mt.ship_x, mt.ship_y), d)).1.2)
            ((mt.actions.foldl stepAction ((mt.ship_x, mt.ship_y), d)).2, true)
            (wf_del bs b (mt.ship_x, mt.ship_y) hwf)
            ⟨h1.1, h1.2.1, h1.2.2.1, h1.2.2.2⟩)

/-- C7 witness: shooting the alive ship at (5, 5) on the in-bounds fixture
board of size 10 preserves the board invariant. -/
theorem c7_invariant_preservation_witness :
    BoardWF 10 (process_turn 10 boardOneShip 0 (Turn.shooting ⟨5, 5⟩)).1 :=
  c7_invariant_preservation 10 boardOneShip 0 (Turn.shooting ⟨5, 5⟩)
    (.sunkAliveShip 5 5)
    (by
      intro c s hc
      by_cases h : c = (5, 5)
      · subst h
        exact ⟨by norm_num, by norm_num, by norm_num, by norm_num⟩
      · simp [boardOneShip, h] at hc)
    (by decide)

/-- C9: an alive ship at an in-bounds coordinate moving M,L,L,M (or M,R,R,M)
always succeeds — the obstruction state of the intermediate cell is
irrelevant because only the final cell is checked, and the final cell is the
ship's own vacated start cell — and returns the ship to its original
coordinate with heading rotated 180 degrees. -/
theorem c9_round_trip :
    ∀ (bs : Int) (b : Board) (tn : Nat) (x y : Int) (d : Dir),
      b (x, y) = some (d, true) →
      0 ≤ x → 0 ≤ y → x < bs → y < bs →
      process_turn bs b tn (Turn.movement ⟨x, y, [.M, .L, .L, .M]⟩) =
        (Board.set b (x, y)
          (DIRECTION_TRANSITIONS (DIRECTION_TRANSITIONS d Rot.L) Rot.L, true),
         .ok (.movedShip x y d x y
           (DIRECTION_TRANSITIONS (DIRECTION_TRANSITIONS d Rot.L) Rot.L))) ∧
      process_turn bs b tn (Turn.movement ⟨x, y, [.M, .R, .R, .M]⟩) =
        (Board.set b (x, y)
          (DIRECTION_TRANSITIONS (DIRECTION_TRANSITIONS d Rot.R) Rot.R, true),
         .ok (.movedShip x y d x y
           (DIRECTION_TRANSITIONS (DIRECTION_TRANSITIONS d Rot.R) Rot.R))) := by
  intro bs b tn x y d hb hx0 hy0 hxs hys
  have hout : ¬(x < 0 ∨ y < 0 ∨ x ≥ bs ∨ y ≥ bs) := by omega
  have hfree : (Board.del b (x, y) (x, y)).isSome = false := by
    simp [Board.del]
  have hfoldL : [MoveAction.M, .L, .L, .M].foldl stepAction ((x, y), d) =
      ((x, y), DIRECTION_TRANSITIONS (DIRECTION_TRANSITIONS d Rot.L) Rot.L) := by
    cases d <;>
      simp [stepAction, DIRECTION_TRANSITIONS, DIRECTION_DELTAS, Prod.ext_iff]
  have hfoldR : [MoveAction.M, .R, .R, .M].foldl stepAction ((x, y), d) =
      ((x, y), DIRECTION_TRANSITIONS (DIRECTION_TRANSITIONS d Rot.R) Rot.R) := by
    cases d <;>
      simp [stepAction, DIRECTION_TRANSITIONS, DIRECTION_DELTAS, Prod.ext_iff]
  constructor
  · have hm := process_move_alive bs b tn ⟨x, y, [.M, .L, .L, .M]⟩ d x y
      (DIRECTION_TRANSITIONS (DIRECTION_TRANSITIONS d Rot.L) Rot.L) hb hfoldL
    rw [show process_turn bs b tn (Turn.movement ⟨x, y, [.M, .L, .L, .M]⟩) =
      process_move bs b tn ⟨x, y, [.M, .L, .L, .M]⟩ from rfl, hm,
      if_neg hout, if_neg (by simp [hfree]), set_del_self]
  · have hm := process_move_alive bs b tn ⟨x, y, [.M, .R, .R, .M]⟩ d x y
      (DIRECTION_TRANSITIONS (DIRECTION_TRANSITIONS d Rot.R) Rot.R) hb hfoldR
    rw [show process_turn bs b tn (Turn.movement ⟨x, y, [.M, .R, .R, .M]⟩) =
      process_move bs b tn ⟨x, y, [.M, .R, .R, .M]⟩ from rfl, hm,
      if_neg hout, if_neg (by simp [hfree]), set_del_self]

/-- C9 witness: the ship at (5, 5) heading N on the fixture board, moving
M,L,L,M, ends back at (5, 5) heading S. -/
theorem c9_round_trip_witness :
    process_turn 10 boardOneShip 0
        (Turn.movement ⟨5, 5, [.M, .L, .L, .M]⟩) =
      (Board.set boardOneShip (5, 5) (Dir.S, true),
       .ok (.movedShip 5 5 Dir.N 5 5 Dir.S)) :=
  (c9_round_trip 10 boardOneShip 0 5 5 Dir.N (by decide) (by decide)
    (by decide) (by decide) (by decide)).1

/-- C10: the three whitespace variants all parse to the identical
ShootingTurn(123, 4); and whenever the regex search over the stripped line
captures (x, y, acts), the parser emits a MovementTurn carrying exactly the
captured ordered action letters precisely when that capture is non-empty,
and a ShootingTurn otherwise. -/
theorem c10_parse_choice :
    (make_turn_from_line lineA = some (Turn.shooting ⟨123, 4⟩) ∧
     make_turn_from_line lineB = some (Turn.shooting ⟨123, 4⟩) ∧
     make_turn_from_line lineC = some (Turn.shooting ⟨123, 4⟩)) ∧
    ∀ (line : List Char) (x y : Nat) (acts : List Char),
      searchTurn (pyStrip line) = some (x, y, acts) →
      (acts ≠ [] →
        make_turn_from_line line =
          some (Turn.movement ⟨(x : Int), (y : Int), acts.map charToAction⟩)) ∧
      (acts = [] →
        make_turn_from_line line = some (Turn.shooting ⟨(x : Int), (y : Int)⟩)) := by
  constructor
  · exact ⟨by decide, by decide, by decide⟩
  · intro line x y acts h
    constructor
    · intro hne
      simp [make_turn_from_line, h, hne]
    · intro he
      subst he
      simp [make_turn_from_line, h]

/-- C10 witness: the line (1,2)LR parses to MovementTurn(1, 2, [L, R]). -/
theorem c10_parse_choice_witness :
    make_turn_from_line lineD =
      some (Turn.movement ⟨1, 2, [MoveAction.L, MoveAction.R]⟩) :=
  (c10_parse_choice.2 lineD 1 2 ['L', 'R'] (by decide)).1 (by decide)

theorem searchTurn_none_iff (cs : List Char) :
    searchTurn cs = none ↔
      ∀ i : Fin (cs.length + 1), matchTurnAt (cs.drop i.1) = none := by
  induction cs with
  | nil =>
    constructor
    · intro h i
      have h2 := i.2
      simp only [List.length_nil] at h2
      have h0 : i.1 = 0 := by omega
      rw [h0]
      exact h
    · intro h
      exact h ⟨0, by omega⟩
  | cons c cs ih =>
    constructor
    · intro h i
      cases hm : matchTurnAt (c :: cs) with
      | some r =>
        simp [searchTurn, hm] at h
      | none =>
        simp only [searchTurn, hm] at h
        obtain ⟨iv, hiv⟩ := i
        cases iv with
        | zero => exact hm
        | succ j =>
          have hj : j < cs.length + 1 := by
            simp only [List.length_cons] at hiv
            omega
          exact (ih.mp h) ⟨j, hj⟩
    · intro h
      have hm : matchTurnAt (c :: cs) = none := h ⟨0, by omega⟩
      simp only [searchTurn, hm]
      exact ih.mpr (fun i => h ⟨i.1 + 1, by
        have h2 := i.2
        simp only [List.length_cons]
        omega⟩)

/-- C4 (amended): the turn parser fails exactly when no start position of
the stripped line matches the pattern at all — as for a malformed bracket or
a non-numeric coordinate with no valid parenthesized pair elsewhere in the
line; there is no ParseError class in the source, the failure being an
unhandled AttributeError on the None returned by re.search.  Disallowed
characters after the close-paren action run do not cause a failure: the
match simply stops before them (see the counterexample theorem). -/
theorem c4_parse_failure :
    (∀ line : List Char,
      make_turn_from_line line = none ↔
        ∀ i : Fin ((pyStrip line).length + 1),
          matchTurnAt ((pyStrip line).drop i.1) = none) ∧
    make_turn_from_line lineBadBracket = none ∧
    make_turn_from_line lineBadNumber = none := by
  refine ⟨?_, by decide, by decide⟩
  intro line
  have hiff : make_turn_from_line line = none ↔
      searchTurn (pyStrip line) = none := by
    unfold make_turn_from_line
    cases hs : searchTurn (pyStrip line) with
    | none => simp
    | some r =>
      obtain ⟨x, y, acts⟩ := r
      by_cases ha : acts = [] <;> simp [ha]
  rw [hiff]
  exact searchTurn_none_iff (pyStrip line)

/-- C4 counterexample: the line (1,2)X has a disallowed character after the
close-paren action run, yet the parser does not fail — it produces
ShootingTurn(1, 2), refuting the claim that such lines raise a ParseError. -/
theorem c4_counterexample :
    make_turn_from_line lineJunk ≠ none ∧
    make_turn_from_line lineJunk = some (Turn.shooting ⟨1, 2⟩) :=
  ⟨by decide, by decide⟩

/-- C4 witness: a line with an unclosed bracket makes the parser fail. -/
theorem c4_parse_failure_witness :
    make_turn_from_line lineBadBracket = none :=
  (c4_parse_failure.1 lineBadBracket).mpr (by decide)

/-- C6 (amended): constructing the initial board never fails and performs no
validation: the dict comprehension in run ignores the board size entirely
(an out-of-bounds ship is accepted silently) and resolves duplicated
coordinates by letting the last listed ship overwrite the earlier ones,
leaving every other coordinate unaffected. -/
theorem c6_initial_board_no_validation :
    (∀ (ships : List Ship) (s : Ship),
      initialBoard (ships ++ [s]) (s.x, s.y) = some (s.direction, s.alive)) ∧
    (∀ (ships : List Ship) (s : Ship) (c : Int × Int), c ≠ (s.x, s.y) →
      initialBoard (ships ++ [s]) c = initialBoard ships c) ∧
    (∀ (bs : Int) (ships : List Ship),
      run bs ships [] = .ok (initialBoard ships)) := by
  have happ : ∀ (ships : List Ship) (s : Ship),
      initialBoard (ships ++ [s]) =
        Board.set (initialBoard ships) (s.x, s.y) (s.direction, s.alive) := by
    intro ships s
    unfold initialBoard
    rw [List.foldl_append]
    rfl
  refine ⟨?_, ?_, ?_⟩
  · intro ships s
    rw [happ]
    simp [Board.set]
  · intro ships s c hc
    rw [happ]
    simp [Board.set, hc]
  · intro bs ships
    rfl

/-- C6 counterexample: with board size 1, a fleet whose only ship sits at
the out-of-bounds coordinate (5, 5) is accepted silently — run returns the
constructed board, which contains the ship — and a fleet listing two ships
at (0, 0) also constructs, keeping the last one; construction never fails,
refuting the claim. -/
theorem c6_counterexample :
    run 1 [⟨5, 5, Dir.N, true⟩] [] = .ok (initialBoard [⟨5, 5, Dir.N, true⟩]) ∧
    initialBoard [⟨5, 5, Dir.N, true⟩] (5, 5) = some (Dir.N, true) ∧
    initialBoard [⟨0, 0, Dir.N, true⟩, ⟨0, 0, Dir.E, true⟩] (0, 0) =
      some (Dir.E, true) :=
  ⟨rfl, by decide, by decide⟩

/-- C6 witness: adding a ship at (2, 2) leaves the entry at (0, 0) as built
from the earlier list alone. -/
theorem c6_initial_board_witness :
    initialBoard ([⟨0, 0, Dir.N, true⟩] ++ [⟨2, 2, Dir.E, true⟩]) (0, 0) =
      initialBoard [⟨0, 0, Dir.N, true⟩] (0, 0) :=
  c6_initial_board_no_validation.2.1 [⟨0, 0, Dir.N, true⟩] ⟨2, 2, Dir.E, true⟩
    (0, 0) (by decide)

end ShipGame
